import Mathlib

/-!
Shallow embedding of `quai-stratum-block-monitor` (Go, two source files:
`main.go`, the polling variant, and a second unnamed streaming variant).
The program tails a stratum server's log, extracts broadcast block heights,
and each tick emits two gauges (continuity, updated) to a Prometheus file.

Machine integers are modelled as `Int` (Go `int` is 64-bit here; all
arithmetic in the program stays far from overflow except `strconv.Atoi`,
which is modelled explicitly with its 2^63 bound).
-/

namespace QuaiMonitor

/-! ## Window sampler (`checkContinuity`, `getLatestBlock`) -/

/-- The body of the loop `for i := 1; i < len(blocks); i++` in
`checkContinuity`: `prev` is `blocks[i-1]`; returns 0 on the first pair
with `blocks[i] != blocks[i-1]+1`, else 1. -/
def contLoop : Int → List Int → Int
  | _, [] => 1
  | prev, b :: rest => if b = prev + 1 then contLoop b rest else 0

/-- Go `checkContinuity(blocks []int) int` (identical in both source files):
returns 1 when `len(blocks) <= 1`, otherwise scans adjacent pairs in the
given arrival order and returns 0 at the first pair not increasing by
exactly one. -/
def checkContinuity (blocks : List Int) : Int :=
  match blocks with
  | [] => 1
  | [_] => 1
  | b :: rest => contLoop b rest

/-- Go `getLatestBlock(blocks []int) int`: `-1` on the empty slice, else
`blocks[len(blocks)-1]`. The in-bounds proof of the index is carried in
the `dite`. -/
def getLatestBlock (blocks : List Int) : Int :=
  if h : blocks.length = 0 then -1
  else blocks.get ⟨blocks.length - 1, by omega⟩

/-- Modelled from the spec: the dedup-and-sort continuity contract of
§4.3 ("let `D` be the set of distinct values in `blocks`, sorted
ascending; `continuity = 1` iff `D[i] = D[i-1] + 1` for all interior
`i`"). Duplicates are removed and the result sorted ascending before the
adjacent-pair check. -/
def checkContinuitySpec (blocks : List Int) : Int :=
  checkContinuity (List.insertionSort (· ≤ ·) blocks.dedup)

/-! ## Driver tick

`main.go` lines 53–63: compute continuity, read the terminal height,
set `isUpdated`, and update the stored `lastBlockNumber` only when the
terminal height is positive and differs. Result is
`(continuity, updated, new lastBlockNumber)`. -/

def tickMain (lastHeight : Int) (blocks : List Int) : Int × Int × Int :=
  let isContinuous := checkContinuity blocks
  let current := getLatestBlock blocks
  if current = lastHeight then (isContinuous, 0, lastHeight)
  else if current > 0 then (isContinuous, 1, current)
  else (isContinuous, 1, lastHeight)

/-- The streaming variant's tick (unnamed file, lines 42–49): same
`updated` condition, but the stored height is overwritten unconditionally
in the else-branch. -/
def tickPart0 (lastHeight : Int) (blocks : List Int) : Int × Int × Int :=
  let isContinuous := checkContinuity blocks
  let current := getLatestBlock blocks
  if current = lastHeight then (isContinuous, 0, lastHeight)
  else (isContinuous, 1, current)

/-- One iteration of the driver loop of `main.go` (lines 44–68), with the
Log Source's result abstracted: `none` models a `readRecentBlocks` error.
Returns the stored height after the tick and `some (continuity, updated)`
when the Metric Writer is invoked, `none` when the iteration `continue`s
without writing. -/
def driverTickMain (lastHeight : Int) (sourceResult : Option (List Int)) :
    Int × Option (Int × Int) :=
  match sourceResult with
  | none => (lastHeight, none)
  | some blocks =>
      let r := tickMain lastHeight blocks
      (r.2.2, some (r.1, r.2.1))

/-- One iteration of the streaming variant's driver loop (unnamed file,
lines 28–61), same error shape: on a `readBlocksFromSupervisor` error the
loop sleeps and `continue`s without touching state or the file. -/
def driverTickPart0 (lastHeight : Int) (sourceResult : Option (List Int)) :
    Int × Option (Int × Int) :=
  match sourceResult with
  | none => (lastHeight, none)
  | some blocks =>
      let r := tickPart0 lastHeight blocks
      (r.2.2, some (r.1, r.2.1))

/-! ## Metric writer -/

/-- Go `strings.Join(elems, sep)`. -/
def goStringsJoin (elems : List String) (sep : String) : String :=
  match elems with
  | [] => ""
  | e :: rest => rest.foldl (fun acc s => acc ++ sep ++ s) e

/-- The file contents produced by `writePromMetrics` in `main.go`:
`strings.Join` of the two metric lines and a final empty element with
separator `"\n"`. -/
def writePromMetricsContent (isContinuous isUpdated : Int) : String :=
  goStringsJoin
    ["quai_stratum_block_number_continuity " ++ toString isContinuous,
     "quai_stratum_block_number_update " ++ toString isUpdated,
     ""] "\n"

/-- The file contents produced by `writePromMetrics` in the streaming
variant: `strings.Join` of the two lines with `"\n"`, then `+ "\n"`. -/
def writePromMetricsContentPart0 (isContinuous isUpdated : Int) : String :=
  goStringsJoin
    ["quai_stratum_block_number_continuity " ++ toString isContinuous,
     "quai_stratum_block_number_update " ++ toString isUpdated] "\n" ++ "\n"

/-- `os.WriteFile` truncates: the file contents after a successful
`writePromMetrics` call, as a function of the prior contents. -/
def fileAfterWrite (_prior : String) (isContinuous isUpdated : Int) : String :=
  writePromMetricsContent isContinuous isUpdated

/-! ## Line parsing

Both regexes are embedded as character-level matchers. Go regexp `\s`
is the class `[\t\n\f\r ]`; `\d+` is greedy, and since every `\d+` /
`\s+` in these patterns is followed by a literal outside its class,
greedy matching with no backtracking is exact. -/

/-- Go regexp `\s` character class. -/
def goIsSpace (c : Char) : Bool :=
  c = ' ' || c = '\t' || c = '\n' || c = '\x0c' || c = '\r'

/-- Match `\d{n}` at the head: exactly `n` digit characters. -/
def takeExactDigits : Nat → List Char → Option (List Char × List Char)
  | 0, l => some ([], l)
  | _ + 1, [] => none
  | n + 1, c :: l =>
      if c.isDigit then (takeExactDigits n l).map fun p => (c :: p.1, p.2)
      else none

/-- Match a literal at the head, returning the remainder. -/
def dropLit : List Char → List Char → Option (List Char)
  | [], l => some l
  | _ :: _, [] => none
  | p :: ps, c :: l => if c = p then dropLit ps l else none

/-- Match `(\d+)` at the head (greedy, at least one digit). -/
def takeDigits1 (l : List Char) : Option (List Char × List Char) :=
  let p := l.span (·.isDigit)
  if p.1.isEmpty then none else some p

/-- Match `\s+` at the head (greedy, at least one). -/
def dropSpaces1 (l : List Char) : Option (List Char) :=
  let p := l.span goIsSpace
  if p.1.isEmpty then none else some p.2

/-- `\d{4}/\d{2}/\d{2}` at the head: the matched text and remainder. -/
def matchDatePart (l : List Char) : Option (List Char × List Char) :=
  (takeExactDigits 4 l).bind fun p1 =>
  (dropLit ['/'] p1.2).bind fun r2 =>
  (takeExactDigits 2 r2).bind fun p2 =>
  (dropLit ['/'] p2.2).bind fun r3 =>
  (takeExactDigits 2 r3).map fun p3 =>
    (p1.1 ++ '/' :: p2.1 ++ '/' :: p3.1, p3.2)

/-- The capture group `(\d{4}/\d{2}/\d{2}\s\d{2}:\d{2}:\d{2})` at the
head: its matched text and the remainder. -/
def matchTimestampPart (l : List Char) : Option (List Char × List Char) :=
  (matchDatePart l).bind fun pa =>
  match pa.2 with
  | [] => none
  | sc :: r4 =>
    if goIsSpace sc then
      (takeExactDigits 2 r4).bind fun p4 =>
      (dropLit [':'] p4.2).bind fun r5 =>
      (takeExactDigits 2 r5).bind fun p5 =>
      (dropLit [':'] p5.2).bind fun r6 =>
      (takeExactDigits 2 r6).map fun p6 =>
        (pa.1 ++ sc :: p4.1 ++ ':' :: p5.1 ++ ':' :: p6.1, p6.2)
    else none

/-- `main.go`'s anchored `logRegex`
`^(\d{4}/\d{2}/\d{2}\s\d{2}:\d{2}:\d{2})\s+Broadcasting block (\d+) to
(\d+) stratum miners`, applied at the start of the line as
`FindStringSubmatch` does for a `^`-anchored pattern. Returns the three
capture groups on success. -/
def matchLogRegex (l : List Char) :
    Option (List Char × List Char × List Char) :=
  (matchTimestampPart l).bind fun pb =>
  (dropSpaces1 pb.2).bind fun r7 =>
  (dropLit "Broadcasting block ".toList r7).bind fun r8 =>
  (takeDigits1 r8).bind fun p7 =>
  (dropLit " to ".toList p7.2).bind fun r9 =>
  (takeDigits1 r9).bind fun p8 =>
  (dropLit " stratum miners".toList p8.2).map fun _ =>
    (pb.1, p7.1, p8.1)

/-- Digit run to its base-10 value. -/
def digitsToNat (ds : List Char) : Nat :=
  ds.foldl (fun a c => a * 10 + (c.toNat - 48)) 0

def isLeapYear (y : Nat) : Bool :=
  (y % 4 == 0 && y % 100 != 0) || y % 400 == 0

def daysInMonth (y m : Nat) : Nat :=
  if m = 2 then (if isLeapYear y then 29 else 28)
  else if m = 4 ∨ m = 6 ∨ m = 9 ∨ m = 11 then 30
  else 31

/-- `YYYY/MM/DD` with exact `/` separators: numeric fields and rest. -/
def parseYMD (ts : List Char) : Option (Nat × Nat × Nat × List Char) :=
  (takeExactDigits 4 ts).bind fun py =>
  (dropLit ['/'] py.2).bind fun r =>
  (takeExactDigits 2 r).bind fun pmo =>
  (dropLit ['/'] pmo.2).bind fun r2 =>
  (takeExactDigits 2 r2).map fun pd =>
    (digitsToNat py.1, digitsToNat pmo.1, digitsToNat pd.1, pd.2)

/-- `HH:MM:SS` with exact `:` separators: numeric fields and rest. -/
def parseHMS (l : List Char) : Option (Nat × Nat × Nat × List Char) :=
  (takeExactDigits 2 l).bind fun ph =>
  (dropLit [':'] ph.2).bind fun r =>
  (takeExactDigits 2 r).bind fun pmi =>
  (dropLit [':'] pmi.2).bind fun r2 =>
  (takeExactDigits 2 r2).map fun ps =>
    (digitsToNat ph.1, digitsToNat pmi.1, digitsToNat ps.1, ps.2)

/-- Go `time.Parse("2006/01/02 15:04:05", s)`: fixed-width numeric
fields, exact separators (the layout's date-time separator is a plain
space, so a tab that `\s` accepted is a parse error), and Go's range
validation (month 1–12, day 1–last day of that month with leap years,
hour ≤ 23, minute/second ≤ 59). The instant is returned as a mixed-radix
rank that is strictly monotone in the (y, mo, d, h, mi, s) tuple, which
is all `Time.After` comparisons need. -/
def parseGoTime (ts : List Char) : Option Nat :=
  (parseYMD ts).bind fun pd =>
  match pd with
  | (yn, mon, dn, r1) =>
    (dropLit [' '] r1).bind fun r2 =>
    (parseHMS r2).bind fun pt =>
    match pt with
    | (hn, mn, sn, r3) =>
      if r3 = [] ∧ 1 ≤ mon ∧ mon ≤ 12 ∧ 1 ≤ dn ∧ dn ≤ daysInMonth yn mon ∧
          hn ≤ 23 ∧ mn ≤ 59 ∧ sn ≤ 59 then
        some (((((yn * 12 + (mon - 1)) * 31 + (dn - 1)) * 24 + hn) * 60 + mn)
          * 60 + sn)
      else none

/-- Go `strconv.Atoi` on a non-empty digit run: the parsed value and an
ok flag; out of the 64-bit range it returns the clamped maximum with
`err != nil` (flag false), as `strconv.ParseInt` does. -/
def goAtoi (ds : List Char) : Int × Bool :=
  let n := digitsToNat ds
  if n ≤ 9223372036854775807 then ((n : Int), true)
  else ((9223372036854775807 : Int), false)

/-- Go `parseTimeAndBlock` of `main.go`: regex match (all four groups
present iff the match succeeded), then `time.Parse` and `Atoi`; any
failure yields "not a match". -/
def parseTimeAndBlock (line : String) : Option (Nat × Int) :=
  (matchLogRegex line.toList).bind fun m =>
  (parseGoTime m.1).bind fun t =>
  if (goAtoi m.2.1).2 then some (t, (goAtoi m.2.1).1) else none

/-- The filtering loop of `readRecentBlocks` (`main.go` lines 119–129):
keep, in order, the parsed heights of lines whose timestamp is strictly
after `afterTime` (`t.After(afterTime)`). -/
def readRecentBlocksFilter (afterTime : Nat) (lines : List String) :
    List Int :=
  lines.filterMap fun line =>
    match parseTimeAndBlock line with
    | some (t, b) => if afterTime < t then some b else none
    | none => none

/-- The streaming variant's unanchored `blockRegex`
`Broadcasting block (\d+) to \d+ stratum miners`, matched at the head. -/
def matchBlockSubAt (l : List Char) : Option (List Char) :=
  (dropLit "Broadcasting block ".toList l).bind fun r =>
  (takeDigits1 r).bind fun pb =>
  (dropLit " to ".toList pb.2).bind fun r2 =>
  (takeDigits1 r2).bind fun pm =>
  (dropLit " stratum miners".toList pm.2).map fun _ =>
  pb.1

/-- `FindStringSubmatch` with the unanchored `blockRegex`: leftmost
match anywhere in the line. -/
def matchBlockRegex : List Char → Option (List Char)
  | [] => none
  | c :: rest =>
      match matchBlockSubAt (c :: rest) with
      | some blk => some blk
      | none => matchBlockRegex rest

/-- The extraction loop of `readBlocksFromSupervisor` (unnamed file,
lines 82–88): every line with a `blockRegex` match contributes
`strconv.Atoi(matches[1])`, the `Atoi` error being discarded. -/
def readBlocksStream (lines : List String) : List Int :=
  lines.filterMap fun line =>
    match matchBlockRegex line.toList with
    | some blk => some (goAtoi blk).1
    | none => none

/-! ## Helper lemmas -/

theorem contLoop_eq_zero_or_one (prev : Int) (l : List Int) :
    contLoop prev l = 0 ∨ contLoop prev l = 1 := by
  induction l generalizing prev with
  | nil => right; rfl
  | cons b rest ih =>
      by_cases h : b = prev + 1
      · simpa [contLoop, h] using ih b
      · left; simp [contLoop, h]

theorem checkContinuity_eq_zero_or_one (blocks : List Int) :
    checkContinuity blocks = 0 ∨ checkContinuity blocks = 1 := by
  match blocks with
  | [] => right; rfl
  | [_] => right; rfl
  | b :: c :: rest => exact contLoop_eq_zero_or_one b (c :: rest)

theorem contLoop_eq_one_iff (prev : Int) (l : List Int) :
    contLoop prev l = 1 ↔ List.Chain (fun a b => b = a + 1) prev l := by
  induction l generalizing prev with
  | nil => simp [contLoop]
  | cons b rest ih =>
      by_cases h : b = prev + 1
      · simp [contLoop, h, ih]
      · constructor
        · intro hc; simp [contLoop, h] at hc
        · intro hc; exact absurd (List.chain_cons.mp hc).1 h

theorem checkContinuity_eq_one_iff (blocks : List Int) :
    checkContinuity blocks = 1 ↔ List.Chain' (fun a b => b = a + 1) blocks := by
  match blocks with
  | [] => simp [checkContinuity]
  | [_] => simp [checkContinuity]
  | b :: c :: rest =>
      show contLoop b (c :: rest) = 1 ↔ _
      rw [contLoop_eq_one_iff, List.chain'_cons']
      constructor
      · intro h; exact ⟨fun y hy => by cases hy; exact (List.chain_cons.mp h).1,
          (List.chain_cons.mp h).2⟩
      · intro ⟨h1, h2⟩; exact List.chain_cons.mpr ⟨h1 c rfl, h2⟩

theorem get_last_eq_getLastD (l : List Int) :
    ∀ (a d : Int), (a :: l).get ⟨l.length, by simp⟩ = (a :: l).getLastD d := by
  induction l with
  | nil => intro a d; rfl
  | cons b rest ih =>
      intro a d
      show (b :: rest).get ⟨rest.length, by simp⟩ = (a :: b :: rest).getLastD d
      rw [List.getLastD_cons]
      exact ih b a

theorem getLatestBlock_eq_getLastD (blocks : List Int) :
    getLatestBlock blocks = blocks.getLastD (-1) := by
  match blocks with
  | [] => rfl
  | b :: rest =>
      rw [getLatestBlock, dif_neg (by simp)]
      exact get_last_eq_getLastD rest b (-1)

/-! ## Claim theorems -/

/-- C1, counterexample: the claimed dedup-and-sort contract fails on the
code. On `[42, 42, 42, 42]` the distinct sorted set is `[42]`, so the
claimed continuity is 1 (as `checkContinuitySpec` computes), but
`checkContinuity` as implemented returns 0. -/
theorem claim_C1_counterexample :
    checkContinuity [42, 42, 42, 42] = 0 ∧
      checkContinuitySpec [42, 42, 42, 42] = 1 := by
  constructor <;> rfl

/-- C1 (amended): the continuity output is 1 iff every adjacent pair of
the block sequence, in arrival order, increases by exactly one; duplicates
are NOT removed and the sequence is NOT sorted before the check. -/
theorem claim_C1 (blocks : List Int) :
    checkContinuity blocks = 1 ↔
      List.Chain' (fun a b => b = a + 1) blocks :=
  checkContinuity_eq_one_iff blocks

/-- C2, counterexample: continuity is order-sensitive: `[1, 2]` and its
permutation `[2, 1]` get different outputs. -/
theorem claim_C2_counterexample :
    List.Perm [(1 : Int), 2] [2, 1] ∧
      checkContinuity [(1 : Int), 2] = 1 ∧ checkContinuity [(2 : Int), 1] = 0 := by
  refine ⟨by decide, rfl, rfl⟩

/-- C2 (amended): the dedup-and-sort continuity of the spec contract is
order-insensitive (permuting the block sequence never changes it), but the
implemented `checkContinuity` is order-sensitive. -/
theorem claim_C2 (l l' : List Int) (h : l.Perm l') :
    checkContinuitySpec l = checkContinuitySpec l' := by
  have hp : (List.insertionSort (· ≤ ·) l.dedup).Perm
      (List.insertionSort (· ≤ ·) l'.dedup) :=
    (List.perm_insertionSort _ _).trans
      (h.dedup.trans (List.perm_insertionSort _ _).symm)
  have heq := List.eq_of_perm_of_sorted hp
    (List.sorted_insertionSort _ _) (List.sorted_insertionSort _ _)
  rw [checkContinuitySpec, checkContinuitySpec, heq]

/-- Witness for C2 at the concrete permutation pair `[2,1,3] ~ [3,1,2]`. -/
theorem claim_C2_witness :
    List.Perm [(2 : Int), 1, 3] [3, 1, 2] ∧
      checkContinuitySpec [(2 : Int), 1, 3] = checkContinuitySpec [3, 1, 2] :=
  ⟨by decide, claim_C2 [2, 1, 3] [3, 1, 2] (by decide)⟩

/-- C3: in both variants, the tick's `updated` output is 0 iff the
terminal value of the window (last element of `blocks`, `-1` when empty)
equals the stored `lastHeight` at the start of the tick, and 1 otherwise. -/
theorem claim_C3 (last : Int) (blocks : List Int) :
    (tickMain last blocks).2.1 =
        (if blocks.getLastD (-1) = last then 0 else 1) ∧
      (tickPart0 last blocks).2.1 =
        (if blocks.getLastD (-1) = last then 0 else 1) := by
  have hg := getLatestBlock_eq_getLastD blocks
  constructor
  · simp only [tickMain, hg]
    split_ifs <;> rfl
  · simp only [tickPart0, hg]
    split_ifs <;> rfl

/-- C4, counterexample: with stored `lastHeight = 500` and an empty
window, the code compares `current = -1` against `500`, finds them
different, and reports `updated = 1`, not the claimed `0`. -/
theorem claim_C4_counterexample :
    (tickMain 500 []).2.1 = 1 ∧ (tickMain 500 []).2.1 ≠ 0 := by
  constructor <;> decide

/-- C4 (amended): with stored `lastHeight = 500` and empty `blocks`, the
tick produces continuity 1 and `updated = 1`, and `lastHeight` stays 500
(`current = -1` is not positive, so the stored height is untouched). -/
theorem claim_C4 : tickMain 500 [] = (1, 1, 500) := by
  decide

/-- C5, counterexample: with prior height `-1` and `blocks = [5, 3]`, the
stored height becomes the last element 3, which is neither the prior
height nor `max(blocks) = 5` — refuting `lastHeight_after ∈
{lastHeight_before, max(blocks)}`. -/
theorem claim_C5_counterexample :
    (tickMain (-1) [5, 3]).2.2 = 3 ∧ [(5 : Int), 3].maximum = some 5 ∧
      (3 : Int) ≠ -1 ∧ (3 : Int) ≠ 5 := by
  refine ⟨rfl, by decide, by decide, by decide⟩

/-- C5 (amended): after a tick, the stored height is the LAST element of
`blocks` (not the maximum) when that element is positive and differs from
the prior stored height, and the prior stored height otherwise. -/
theorem claim_C5 (last : Int) (blocks : List Int) :
    (tickMain last blocks).2.2 =
      if blocks.getLastD (-1) ≠ last ∧ blocks.getLastD (-1) > 0 then
        blocks.getLastD (-1)
      else last := by
  have hg := getLatestBlock_eq_getLastD blocks
  simp only [tickMain, hg]
  split_ifs <;> first
    | rfl
    | omega

/-- C6, counterexample: on a Log Source failure (error from
`readRecentBlocks` / `readBlocksFromSupervisor`) the driver `continue`s:
the Metric Writer is handed nothing on that tick, in both variants —
refuting the claim that it "still proceeds to invoke the Metric Writer". -/
theorem claim_C6_counterexample :
    (driverTickMain 500 none).2 = none ∧ (driverTickPart0 500 none).2 = none :=
  ⟨rfl, rfl⟩

/-- C6 (amended): on a tick where the Log Source fails, the driver logs
and retries next tick: it skips the sampler and the Metric Writer
entirely and leaves the stored height unchanged, in both variants. -/
theorem claim_C6 (last : Int) :
    driverTickMain last none = (last, none) ∧
      driverTickPart0 last none = (last, none) :=
  ⟨rfl, rfl⟩

/-- C7, counterexample: the streaming variant's `blockRegex` is not
anchored and has no timestamp, so the line
`"x Broadcasting block 5 to 3 stratum miners"` — which does NOT match
the source-of-truth anchored regex — still contributes height 5 to the
blocks handed to the sampler. -/
theorem claim_C7_counterexample :
    matchLogRegex ("x Broadcasting block 5 to 3 stratum miners".toList) =
        none ∧
      readBlocksStream ["x Broadcasting block 5 to 3 stratum miners"] =
        [5] := by
  constructor <;> decide

/-- C7 (amended): in the polling pipeline of `main.go`, any line not
matching the anchored source-of-truth regex contributes nothing to
`blocks`; the streaming variant instead accepts any line containing the
unanchored broadcast pattern anywhere, timestamp or not. -/
theorem claim_C7 (line : String) (h : matchLogRegex line.toList = none)
    (afterTime : Nat) (rest : List String) :
    readRecentBlocksFilter afterTime (line :: rest) =
      readRecentBlocksFilter afterTime rest := by
  have hp : parseTimeAndBlock line = none := by
    rw [parseTimeAndBlock, h]; rfl
  simp only [readRecentBlocksFilter, List.filterMap_cons, hp]

/-- Witness for C7 at the non-matching line `"hello"`. -/
theorem claim_C7_witness :
    matchLogRegex ("hello".toList) = none ∧
      readRecentBlocksFilter 0 ["hello"] = readRecentBlocksFilter 0 [] :=
  ⟨by decide, claim_C7 "hello" (by decide) 0 []⟩

/-- C8: a window with zero or one blocks is reported continuous. -/
theorem claim_C8 (blocks : List Int) (h : blocks.length ≤ 1) :
    checkContinuity blocks = 1 := by
  match blocks with
  | [] => rfl
  | [_] => rfl
  | _ :: _ :: _ => simp at h

/-- Witness for C8 at the one-element window `[7]`. -/
theorem claim_C8_witness :
    [(7 : Int)].length ≤ 1 ∧ checkContinuity [(7 : Int)] = 1 :=
  ⟨by decide, claim_C8 [7] (by decide)⟩

/-- C9: for both values in `{0, 1}`, both variants of the Metric Writer
produce exactly the two metric lines joined by a newline with a trailing
newline and no other text, and — `os.WriteFile` truncating — the prior
file contents do not affect the result. -/
theorem claim_C9 (c u : Int) (hc : c = 0 ∨ c = 1) (hu : u = 0 ∨ u = 1) :
    writePromMetricsContent c u =
        "quai_stratum_block_number_continuity " ++ toString c ++ "\n" ++
          "quai_stratum_block_number_update " ++ toString u ++ "\n" ∧
      writePromMetricsContentPart0 c u = writePromMetricsContent c u ∧
      ∀ prior : String, fileAfterWrite prior c u =
        writePromMetricsContent c u := by
  rcases hc with rfl | rfl <;> rcases hu with rfl | rfl <;>
    exact ⟨by decide, by decide, fun _ => rfl⟩

/-- Witness for C9 at `(continuity, updated) = (1, 1)`. -/
theorem claim_C9_witness :
    ((1 : Int) = 0 ∨ (1 : Int) = 1) ∧
      writePromMetricsContent 1 1 =
        "quai_stratum_block_number_continuity " ++ toString (1 : Int) ++ "\n" ++
          "quai_stratum_block_number_update " ++ toString (1 : Int) ++ "\n" :=
  ⟨Or.inr rfl, (claim_C9 1 1 (Or.inr rfl) (Or.inr rfl)).1⟩

/-- C10: both helpers are total and in-bounds: `checkContinuity` always
returns 0 or 1, and `getLatestBlock` returns the last element of a
non-empty list and `-1` on the empty list (i.e. `getLastD (-1)`). -/
theorem claim_C10 (blocks : List Int) :
    (checkContinuity blocks = 0 ∨ checkContinuity blocks = 1) ∧
      getLatestBlock blocks = blocks.getLastD (-1) :=
  ⟨checkContinuity_eq_zero_or_one blocks, getLatestBlock_eq_getLastD blocks⟩

end QuaiMonitor
